import Mathlib

/-
  Verification of the listing/query subsystem of the cryptomath-api
  repository: the Articles and Tags filtered-list builders
  (src/models/article.js, src/models/tag.js) and the articles
  controller (controllers/articles.js).

  The embedding is shallow: SQL statements issued by setData() are
  translated clause by clause into executable list functions over an
  explicit database state, and the JS result denormalizer (the
  set data setter) is translated into a fold over raw result rows.
  The helpers prepareWhere / prepareOrder / prepareQuery and the
  FilteredList mixin live in files that are not part of the shown
  source; where their behavior matters it is modelled from the spec
  and marked as such in the doc comment.
-/

/-! ## Generic list helpers used by the embedding -/

/-- Deduplication keeping the first occurrence of each element, in
first-appearance order. -/
def firstDedup {α : Type} [DecidableEq α] (l : List α) : List α :=
  List.foldl (fun acc x => if x ∈ acc then acc else acc ++ [x]) [] l

/-- Deduplication by a key function, keeping the first element carrying
each key, in first-appearance order.  This is how the JS denormalizer
deduplicates nested hub/tag objects: membership is tested on the id
field only, and the first object seen for an id is the one kept. -/
def dedupByKey {α κ : Type} [BEq κ] (k : α → κ) (l : List α) : List α :=
  List.foldl (fun acc x => if acc.any (fun y => k y == k x) then acc else acc ++ [x]) [] l

/-- Apply f to the first element satisfying p, leaving the rest alone.
This models the JS pattern of Array.find followed by in-place mutation
of the found object. -/
def updateFirst {α : Type} (p : α → Bool) (f : α → α) : List α → List α
  | [] => []
  | x :: xs => if p x then f x :: xs else x :: updateFirst p f xs

/-- Null padding for a LEFT OUTER JOIN: an empty match list contributes
one all-null row, a non-empty one contributes its rows. -/
def optList {α : Type} (l : List α) : List (Option α) :=
  if l.isEmpty then [none] else l.map some

/-- Rows contributed by two successive LEFT OUTER JOINs whose match
lists depend only on the outer row (here: answers and votes, both
joined on the article id). -/
def leftJoinRows {α β : Type} (xs : List α) (ys : List β) : List (Option α × Option β) :=
  (optList xs).flatMap (fun x => (optList ys).map (fun y => (x, y)))

/-! ## Database state (tables defined in article.js / tag.js) -/

/-- A row of the Articles table (ArticleModel in article.js). -/
structure ArticleRow where
  id : Int
  title : String
  abstract : String
  raw : String
  author : Int
  tsv : String
  createdAt : Int
deriving DecidableEq, Repr

/-- A row of the Users table; the four columns named by Articles.cols. -/
structure UserRow where
  id : Int
  email : String
  displayName : String
  hash : String
deriving DecidableEq, Repr

/-- A row of the Hubs table; the two columns named by Articles.cols. -/
structure HubRow where
  id : Int
  name : String
deriving DecidableEq, Repr

/-- A row of the Tags table (TagModel in tag.js). -/
structure TagRow where
  id : Int
  name : String
  description : String
  hub : Int
  tsv : String
deriving DecidableEq, Repr

/-- A row of the ArticlesHubs junction table (ArticleHubModel). -/
structure ArticleHubRow where
  id : Int
  article : Int
  hub : Int
deriving DecidableEq, Repr

/-- A row of the ArticlesTags junction table (ArticleTagModel). -/
structure ArticleTagRow where
  id : Int
  article : Int
  tag : Int
deriving DecidableEq, Repr

/-- A row of the ArticlesAnswers table (ArticleAnswerModel). -/
structure ArticleAnswerRow where
  id : Int
  article : Int
  user : Int
  message : String
  createdAt : Int
deriving DecidableEq, Repr

/-- A row of the ArticlesVotes table (ArticleVoteModel). -/
structure ArticleVoteRow where
  id : Int
  article : Int
  user : Int
  vote : Int
deriving DecidableEq, Repr

/-- The relational storage state seen by the two builders. -/
structure DB where
  articles : List ArticleRow
  users : List UserRow
  hubs : List HubRow
  tags : List TagRow
  articleHubs : List ArticleHubRow
  articleTags : List ArticleTagRow
  articleAnswers : List ArticleAnswerRow
  articleVotes : List ArticleVoteRow
deriving Repr

/-! ## Raw result rows and denormalized entities -/

/-- One raw result row of the Articles page statement, with the
aliases used in the SELECT list of Articles.setData.  The hub and tag
identifying columns are Option-valued because a raw Sequelize row can
carry SQL NULL there; the page statement itself inner-joins hubs and
tags, so it only ever produces some-values. -/
structure RawArticleRow where
  id : Int
  title : String
  abstract : String
  createdAt : Int
  rank : Option Int
  userId : Int
  userDisplayName : String
  userHash : String
  hubId : Option Int
  hubName : Option String
  tagId : Option Int
  tagName : Option String
  tagHub : Option Int
  answers : Int
  votes : Int
deriving DecidableEq, Repr, Inhabited

/-- The nested author object built by the Articles data setter. -/
structure AuthorData where
  id : Int
  displayName : String
  hash : String
deriving DecidableEq, Repr, Inhabited

/-- An element of the nested hubs collection. -/
structure HubData where
  id : Option Int
  name : Option String
deriving DecidableEq, Repr, Inhabited

/-- An element of the nested tags collection. -/
structure TagData where
  id : Option Int
  name : Option String
  hub : Option Int
deriving DecidableEq, Repr, Inhabited

/-- One denormalized article entity as produced by the Articles data
setter.  The abstract field is present only in extended mode. -/
structure ArticleEntity where
  id : Int
  title : String
  abstract : Option String
  createdAt : Int
  author : AuthorData
  hubs : List HubData
  tags : List TagData
  answers : Int
  votes : Int
deriving DecidableEq, Repr, Inhabited

/-! ## The Articles result denormalizer (the set data setter) -/

/-- The hub object a row contributes (article.js, set data). -/
def hubOfRow (r : RawArticleRow) : HubData :=
  { id := r.hubId, name := r.hubName }

/-- The tag object a row contributes (article.js, set data). -/
def tagOfRow (r : RawArticleRow) : TagData :=
  { id := r.tagId, name := r.tagName, hub := r.tagHub }

/-- The fresh entity built from the first row seen for a root id
(the newArticleObject literal in article.js, set data). -/
def newArticleObject (extended : Bool) (r : RawArticleRow) : ArticleEntity :=
  { id := r.id
    title := r.title
    abstract := if extended then some r.abstract else none
    createdAt := r.createdAt
    author := { id := r.userId, displayName := r.userDisplayName, hash := r.userHash }
    hubs := [hubOfRow r]
    tags := [tagOfRow r]
    answers := r.answers
    votes := r.votes }

/-- Update applied to an already-accumulated entity when a later row
with the same root id arrives: push the hub and tag objects unless an
object with the same id is already present (article.js, set data). -/
def appendAssoc (r : RawArticleRow) (a : ArticleEntity) : ArticleEntity :=
  let hub := hubOfRow r
  let tag := tagOfRow r
  let hasHub := a.hubs.any (fun h => h.id == hub.id)
  let hasTag := a.tags.any (fun t => t.id == tag.id)
  { a with
    hubs := if hasHub then a.hubs else a.hubs ++ [hub]
    tags := if hasTag then a.tags else a.tags ++ [tag] }

/-- One iteration of the for-loop in the Articles set data setter. -/
def dataStep (extended : Bool) (acc : List ArticleEntity) (r : RawArticleRow) : List ArticleEntity :=
  match acc.find? (fun a => a.id == r.id) with
  | some _ => updateFirst (fun a => a.id == r.id) (appendAssoc r) acc
  | none => acc ++ [newArticleObject extended r]

/-- The Articles set data setter of article.js: fold the raw rows in
order, merging rows that share a root id. -/
def Articles.assignData (extended : Bool) (rows : List RawArticleRow) : List ArticleEntity :=
  rows.foldl (dataStep extended) []

/-! ### Closed-form description of the denormalizer output -/

/-- The rows of a raw row list carrying a given root id. -/
def rowsFor (rows : List RawArticleRow) (i : Int) : List RawArticleRow :=
  rows.filter (fun r => r.id == i)

/-- The entity the denormalizer ends up producing for root id i:
scalars and aggregates from the first row with that id, nested
collections deduplicated by id over all rows with that id. -/
def entityFor (extended : Bool) (rows : List RawArticleRow) (i : Int) : ArticleEntity :=
  match rows.find? (fun r => r.id == i) with
  | some r0 =>
      { newArticleObject extended r0 with
        hubs := dedupByKey (fun h => h.id) ((rowsFor rows i).map hubOfRow)
        tags := dedupByKey (fun t => t.id) ((rowsFor rows i).map tagOfRow) }
  | none => default

/-- Closed form of the denormalizer: one entity per distinct root id,
in first-appearance order. -/
def assignDataSpec (extended : Bool) (rows : List RawArticleRow) : List ArticleEntity :=
  (firstDedup (rows.map (fun r => r.id))).map (entityFor extended rows)

/-! ### Helper lemmas -/

theorem firstDedup_go_mem {α : Type} [DecidableEq α] (x : α) (l acc : List α) :
    x ∈ List.foldl (fun acc y => if y ∈ acc then acc else acc ++ [y]) acc l ↔ x ∈ acc ∨ x ∈ l := by
  induction l generalizing acc with
  | nil => simp
  | cons y ys ih =>
    simp only [List.foldl_cons]
    by_cases hy : y ∈ acc
    · rw [if_pos hy, ih]
      by_cases hxy : x = y <;> simp_all [List.mem_cons]
    · rw [if_neg hy, ih]
      simp [List.mem_append, List.mem_cons]
      tauto

theorem mem_firstDedup {α : Type} [DecidableEq α] (x : α) (l : List α) :
    x ∈ firstDedup l ↔ x ∈ l := by
  unfold firstDedup
  rw [firstDedup_go_mem]
  simp

theorem firstDedup_concat {α : Type} [DecidableEq α] (l : List α) (x : α) :
    firstDedup (l ++ [x]) = if x ∈ l then firstDedup l else firstDedup l ++ [x] := by
  unfold firstDedup
  rw [List.foldl_append]
  simp only [List.foldl_cons, List.foldl_nil]
  have h : (x ∈ List.foldl (fun acc y => if y ∈ acc then acc else acc ++ [y]) [] l) ↔ x ∈ l := by
    rw [firstDedup_go_mem]; simp
  by_cases hx : x ∈ l
  · rw [if_pos (h.mpr hx), if_pos hx]
  · rw [if_neg (fun hc => hx (h.mp hc)), if_neg hx]

theorem nodup_firstDedup {α : Type} [DecidableEq α] (l : List α) : (firstDedup l).Nodup := by
  induction l using List.reverseRecOn with
  | nil => simp [firstDedup]
  | append_singleton xs x ih =>
    rw [firstDedup_concat]
    by_cases hx : x ∈ xs
    · rw [if_pos hx]; exact ih
    · rw [if_neg hx]
      refine List.Nodup.append ih (List.nodup_singleton x) ?_
      intro a ha hax
      rw [List.mem_singleton] at hax
      subst hax
      exact hx ((mem_firstDedup _ _).mp ha)

theorem dedupByKey_go_any {α κ : Type} [BEq κ] [LawfulBEq κ] (k : α → κ) (c : κ) (l acc : List α) :
    (List.foldl (fun acc x => if acc.any (fun y => k y == k x) then acc else acc ++ [x]) acc l).any
        (fun y => k y == c)
      = (acc.any (fun y => k y == c) || l.any (fun y => k y == c)) := by
  induction l generalizing acc with
  | nil => simp
  | cons x xs ih =>
    simp only [List.foldl_cons]
    by_cases hx : acc.any (fun y => k y == k x) = true
    · rw [if_pos hx, ih]
      by_cases hc : (k x == c) = true
      · have hkx : k x = c := by simpa using hc
        have hacc : acc.any (fun y => k y == c) = true := by
          rw [List.any_eq_true] at hx ⊢
          obtain ⟨y, hy, hyk⟩ := hx
          exact ⟨y, hy, by simp_all⟩
        simp [hacc, List.any_cons, hc]
      · simp [List.any_cons, hc]
    · rw [if_neg hx, ih]
      simp [List.any_cons, List.any_append, Bool.or_assoc]

theorem dedupByKey_any {α κ : Type} [BEq κ] [LawfulBEq κ] (k : α → κ) (c : κ) (l : List α) :
    (dedupByKey k l).any (fun y => k y == c) = l.any (fun y => k y == c) := by
  unfold dedupByKey
  rw [dedupByKey_go_any]
  simp

theorem dedupByKey_concat {α κ : Type} [BEq κ] [LawfulBEq κ] (k : α → κ) (l : List α) (x : α) :
    dedupByKey k (l ++ [x])
      = if l.any (fun y => k y == k x) then dedupByKey k l else dedupByKey k l ++ [x] := by
  unfold dedupByKey
  rw [List.foldl_append]
  simp only [List.foldl_cons, List.foldl_nil]
  have hfold : List.foldl (fun acc x => if acc.any (fun y => k y == k x) then acc else acc ++ [x]) [] l
      = dedupByKey k l := rfl
  rw [hfold, dedupByKey_any]

theorem map_key_dedupByKey {α κ : Type} [BEq κ] [LawfulBEq κ] [DecidableEq κ] (k : α → κ) (l : List α) :
    (dedupByKey k l).map k = firstDedup (l.map k) := by
  induction l using List.reverseRecOn with
  | nil => rfl
  | append_singleton xs x ih =>
    rw [dedupByKey_concat, List.map_append]
    simp only [List.map_cons, List.map_nil]
    rw [firstDedup_concat]
    by_cases h : xs.any (fun y => k y == k x) = true
    · have hmem : k x ∈ xs.map k := by
        rw [List.any_eq_true] at h
        obtain ⟨y, hy, hyk⟩ := h
        exact List.mem_map.mpr ⟨y, hy, by simpa using hyk⟩
      rw [if_pos h, if_pos hmem, ih]
    · have hmem : k x ∉ xs.map k := by
        intro hc
        obtain ⟨y, hy, hyk⟩ := List.mem_map.mp hc
        exact h (List.any_eq_true.mpr ⟨y, hy, by simp [hyk]⟩)
      rw [if_neg h, if_neg hmem, List.map_append, ih]
      simp

theorem updateFirst_map_of_nodup {α ι : Type} [BEq ι] [LawfulBEq ι] [DecidableEq ι] (keyf : α → ι) (g : ι → α)
    (f : α → α) (j : ι) :
    ∀ ids : List ι, ids.Nodup → (∀ i ∈ ids, keyf (g i) = i) →
      updateFirst (fun a => keyf a == j) f (ids.map g)
        = ids.map (fun i => if i = j then f (g i) else g i) := by
  intro ids
  induction ids with
  | nil => intro _ _; rfl
  | cons i is ih =>
    intro hnd hkey
    simp only [List.map_cons, updateFirst]
    have hki : keyf (g i) = i := hkey i (List.mem_cons_self i is)
    by_cases hij : i = j
    · subst hij
      rw [if_pos (by simp [hki]), if_pos rfl]
      congr 1
      refine (List.map_congr_left ?_).symm
      intro i' hi'
      have : i' ≠ i := fun hc => ((List.nodup_cons.mp hnd).1 (hc ▸ hi'))
      rw [if_neg this]
    · rw [if_neg (by simp [hki, hij]), if_neg hij]
      congr 1
      exact ih (List.nodup_cons.mp hnd).2 (fun i' hi' => hkey i' (List.mem_cons_of_mem i hi'))

theorem find?_map_eq_some {α ι : Type} [BEq ι] [LawfulBEq ι] (keyf : α → ι) (g : ι → α) (j : ι) :
    ∀ ids : List ι, (∀ i ∈ ids, keyf (g i) = i) → j ∈ ids →
      (ids.map g).find? (fun a => keyf a == j) = some (g j) := by
  intro ids
  induction ids with
  | nil => intro _ h; cases h
  | cons i is ih =>
    intro hkey hj
    have hki : keyf (g i) = i := hkey i (List.mem_cons_self i is)
    simp only [List.map_cons]
    by_cases hij : i = j
    · subst hij
      rw [List.find?_cons_of_pos _ (by simp [hki])]
    · rw [List.find?_cons_of_neg _ (by simp [hki, hij])]
      exact ih (fun i' hi' => hkey i' (List.mem_cons_of_mem i hi'))
        (by cases List.mem_cons.mp hj with
            | inl h => exact absurd h.symm hij
            | inr h => exact h)

theorem find?_map_eq_none {α ι : Type} [BEq ι] [LawfulBEq ι] (keyf : α → ι) (g : ι → α) (j : ι)
    (ids : List ι) (hkey : ∀ i ∈ ids, keyf (g i) = i) (hj : j ∉ ids) :
    (ids.map g).find? (fun a => keyf a == j) = none := by
  rw [List.find?_eq_none]
  intro a ha
  obtain ⟨i, hi, rfl⟩ := List.mem_map.mp ha
  simp only [beq_iff_eq, hkey i hi]
  exact fun hc => hj (hc ▸ hi)

theorem dedupByKey_any_hub (c : Option Int) (l : List HubData) :
    ((dedupByKey (fun h => h.id) l).any fun h => h.id == c) = (l.any fun h => h.id == c) :=
  dedupByKey_any _ c l

theorem dedupByKey_any_tag (c : Option Int) (l : List TagData) :
    ((dedupByKey (fun t => t.id) l).any fun t => t.id == c) = (l.any fun t => t.id == c) :=
  dedupByKey_any _ c l

theorem entityFor_id (extended : Bool) (rows : List RawArticleRow) (i : Int)
    (h : i ∈ rows.map (fun r => r.id)) : (entityFor extended rows i).id = i := by
  unfold entityFor
  obtain ⟨r, hr, hri⟩ := List.mem_map.mp h
  have hsome : (rows.find? (fun r => r.id == i)).isSome :=
    List.find?_isSome.mpr ⟨r, hr, by simp [hri]⟩
  cases hfind : rows.find? (fun r => r.id == i) with
  | none => rw [hfind] at hsome; simp at hsome
  | some r0 =>
    have hid : r0.id = i := by simpa using List.find?_some hfind
    simp [newArticleObject, hid]

theorem assignDataSpec_map_id (extended : Bool) (rows : List RawArticleRow) :
    (assignDataSpec extended rows).map (fun e => e.id) = firstDedup (rows.map (fun r => r.id)) := by
  unfold assignDataSpec
  rw [List.map_map]
  have h : ∀ i ∈ firstDedup (rows.map (fun r => r.id)),
      ((fun e => e.id) ∘ entityFor extended rows) i = (fun i => i) i := by
    intro i hi
    exact entityFor_id extended rows i ((mem_firstDedup _ _).mp hi)
  rw [List.map_congr_left h, List.map_id']

theorem entityFor_append_ne (extended : Bool) (pre : List RawArticleRow) (r : RawArticleRow)
    (i : Int) (hne : i ≠ r.id) :
    entityFor extended (pre ++ [r]) i = entityFor extended pre i := by
  unfold entityFor
  have hne' : r.id ≠ i := fun h => hne h.symm
  have hfilter : rowsFor (pre ++ [r]) i = rowsFor pre i := by
    unfold rowsFor
    rw [List.filter_append]
    simp [hne']
  have hfind : (pre ++ [r]).find? (fun x => x.id == i) = pre.find? (fun x => x.id == i) := by
    rw [List.find?_append]
    have h1 : [r].find? (fun x => x.id == i) = none := by simp [hne']
    rw [h1]
    cases pre.find? (fun x => x.id == i) <;> rfl
  rw [hfind, hfilter]

theorem entityFor_append_self_mem (extended : Bool) (pre : List RawArticleRow)
    (r : RawArticleRow) (hmem : r.id ∈ pre.map (fun x => x.id)) :
    entityFor extended (pre ++ [r]) r.id = appendAssoc r (entityFor extended pre r.id) := by
  unfold entityFor
  obtain ⟨x, hx, hxid⟩ := List.mem_map.mp hmem
  have hsome : (pre.find? (fun x => x.id == r.id)).isSome :=
    List.find?_isSome.mpr ⟨x, hx, by simp [hxid]⟩
  obtain ⟨r0, hr0⟩ := Option.isSome_iff_exists.mp hsome
  have hfind : (pre ++ [r]).find? (fun x => x.id == r.id) = some r0 := by
    rw [List.find?_append, hr0]; rfl
  rw [hr0, hfind]
  have hrows : rowsFor (pre ++ [r]) r.id = rowsFor pre r.id ++ [r] := by
    unfold rowsFor
    rw [List.filter_append]
    simp
  rw [hrows, List.map_append, List.map_append]
  simp only [List.map_cons, List.map_nil]
  rw [dedupByKey_concat, dedupByKey_concat]
  simp only [appendAssoc]
  rw [dedupByKey_any_hub, dedupByKey_any_tag]

theorem entityFor_append_self_new (extended : Bool) (pre : List RawArticleRow)
    (r : RawArticleRow) (hmem : r.id ∉ pre.map (fun x => x.id)) :
    entityFor extended (pre ++ [r]) r.id = newArticleObject extended r := by
  unfold entityFor
  have hnone : pre.find? (fun x => x.id == r.id) = none := by
    rw [List.find?_eq_none]
    intro x hx
    simp only [beq_iff_eq]
    exact fun hc => hmem (List.mem_map.mpr ⟨x, hx, hc⟩)
  have hfind : (pre ++ [r]).find? (fun x => x.id == r.id) = some r := by
    rw [List.find?_append, hnone]
    simp
  rw [hfind]
  have hpre : pre.filter (fun x => x.id == r.id) = [] := by
    rw [List.filter_eq_nil_iff]
    intro x hx
    simp only [beq_iff_eq]
    exact fun hc => hmem (List.mem_map.mpr ⟨x, hx, hc⟩)
  have hrows : rowsFor (pre ++ [r]) r.id = [r] := by
    unfold rowsFor
    rw [List.filter_append, hpre]
    simp
  rw [hrows]
  rfl

theorem dataStep_spec (extended : Bool) (pre : List RawArticleRow) (r : RawArticleRow) :
    dataStep extended (assignDataSpec extended pre) r = assignDataSpec extended (pre ++ [r]) := by
  have hids : ∀ i ∈ firstDedup (pre.map (fun x => x.id)),
      (fun e => ArticleEntity.id e) (entityFor extended pre i) = i := by
    intro i hi
    exact entityFor_id extended pre i ((mem_firstDedup _ _).mp hi)
  have hmapid : (pre ++ [r]).map (fun x => x.id) = pre.map (fun x => x.id) ++ [r.id] := by
    simp
  by_cases hmem : r.id ∈ pre.map (fun x => x.id)
  · have hfind : (assignDataSpec extended pre).find? (fun a => a.id == r.id)
        = some (entityFor extended pre r.id) := by
      unfold assignDataSpec
      exact find?_map_eq_some _ _ _ _ hids ((mem_firstDedup _ _).mpr hmem)
    unfold dataStep
    rw [hfind]
    unfold assignDataSpec
    rw [updateFirst_map_of_nodup (fun e => ArticleEntity.id e) (entityFor extended pre)
      (appendAssoc r) r.id (firstDedup (pre.map (fun x => x.id))) (nodup_firstDedup _) hids]
    rw [hmapid, firstDedup_concat, if_pos hmem]
    apply List.map_congr_left
    intro i hi
    by_cases hij : i = r.id
    · subst hij
      rw [if_pos rfl, entityFor_append_self_mem extended pre r hmem]
    · rw [if_neg hij, entityFor_append_ne extended pre r i hij]
  · have hfind : (assignDataSpec extended pre).find? (fun a => a.id == r.id) = none := by
      unfold assignDataSpec
      exact find?_map_eq_none _ _ _ _ hids
        (fun h => hmem ((mem_firstDedup _ _).mp h))
    unfold dataStep
    rw [hfind]
    show assignDataSpec extended pre ++ [newArticleObject extended r]
      = assignDataSpec extended (pre ++ [r])
    unfold assignDataSpec
    rw [hmapid, firstDedup_concat, if_neg hmem, List.map_append]
    congr 1
    · apply List.map_congr_left
      intro i hi
      have hine : i ≠ r.id := by
        intro hc
        exact hmem (hc ▸ (mem_firstDedup _ _).mp hi)
      exact (entityFor_append_ne extended pre r i hine).symm
    · simp only [List.map_cons, List.map_nil]
      rw [entityFor_append_self_new extended pre r hmem]

/-- Master characterization of the Articles set data setter: the fold
produces exactly the closed form assignDataSpec. -/
theorem assignData_eq_spec (extended : Bool) (rows : List RawArticleRow) :
    Articles.assignData extended rows = assignDataSpec extended rows := by
  have key : ∀ rest pre : List RawArticleRow,
      List.foldl (dataStep extended) (assignDataSpec extended pre) rest
        = assignDataSpec extended (pre ++ rest) := by
    intro rest
    induction rest with
    | nil => intro pre; simp
    | cons r rs ih =>
      intro pre
      rw [List.foldl_cons, dataStep_spec, ih]
      simp
  have h := key rows []
  have h0 : assignDataSpec extended ([] : List RawArticleRow) = [] := rfl
  rw [h0] at h
  unfold Articles.assignData
  rw [h]
  simp

/-- Every entity in the denormalizer output is fully described by the
rows carrying its root id: scalars, author and aggregates come from the
first such row, and nested collections are the id-deduplicated hub/tag
objects of all such rows. -/
theorem mem_assignData (extended : Bool) (rows : List RawArticleRow) (e : ArticleEntity)
    (he : e ∈ Articles.assignData extended rows) :
    ∃ r0, rows.find? (fun r => r.id == e.id) = some r0
      ∧ e.hubs = dedupByKey (fun h => h.id) ((rowsFor rows e.id).map hubOfRow)
      ∧ e.tags = dedupByKey (fun t => t.id) ((rowsFor rows e.id).map tagOfRow)
      ∧ e.author = { id := r0.userId, displayName := r0.userDisplayName, hash := r0.userHash }
      ∧ e.answers = r0.answers ∧ e.votes = r0.votes
      ∧ e.title = r0.title ∧ e.createdAt = r0.createdAt
      ∧ e.abstract = (if extended then some r0.abstract else none) := by
  rw [assignData_eq_spec] at he
  unfold assignDataSpec at he
  obtain ⟨i, hi, rfl⟩ := List.mem_map.mp he
  have himem : i ∈ rows.map (fun r => r.id) := (mem_firstDedup _ _).mp hi
  have hid : (entityFor extended rows i).id = i := entityFor_id extended rows i himem
  obtain ⟨x, hx, hxid⟩ := List.mem_map.mp himem
  have hsome : (rows.find? (fun r => r.id == i)).isSome :=
    List.find?_isSome.mpr ⟨x, hx, by simp [hxid]⟩
  obtain ⟨r0, hr0⟩ := Option.isSome_iff_exists.mp hsome
  have hr0id : r0.id = i := by simpa using List.find?_some hr0
  have hE : entityFor extended rows i =
      { id := r0.id, title := r0.title
        abstract := if extended then some r0.abstract else none
        createdAt := r0.createdAt
        author := { id := r0.userId, displayName := r0.userDisplayName, hash := r0.userHash }
        hubs := dedupByKey (fun h => h.id) ((rowsFor rows i).map hubOfRow)
        tags := dedupByKey (fun t => t.id) ((rowsFor rows i).map tagOfRow)
        answers := r0.answers, votes := r0.votes } := by
    unfold entityFor
    rw [hr0]
    rfl
  refine ⟨r0, ?_, ?_, ?_, ?_, ?_, ?_, ?_, ?_, ?_⟩ <;> rw [hE] <;> simp [hr0id, hr0]

/-- C3: for every input row sequence, the Articles denormalizing data
setter produces exactly one output entity per distinct root id, in
first-appearance order of the root ids; each entity carries hubs and
tags collections deduplicated by id (their id sequences are the
first-appearance deduplication of the association id columns of that
root's rows, so their size is the number of distinct association ids,
never the fan-out M); and the author object and the answers and votes
aggregates are taken from the first row of that root id and never
re-added by later rows. -/
theorem C3_denormalizer_shape (extended : Bool) (rows : List RawArticleRow) :
    ((Articles.assignData extended rows).map (fun e => e.id)
        = firstDedup (rows.map (fun r => r.id)))
    ∧ (Articles.assignData extended rows).length
        = (firstDedup (rows.map (fun r => r.id))).length
    ∧ (Articles.assignData extended rows).Forall (fun e =>
        e.hubs.map (fun h => h.id) = firstDedup ((rowsFor rows e.id).map (fun r => r.hubId))
        ∧ e.hubs.length = (firstDedup ((rowsFor rows e.id).map (fun r => r.hubId))).length
        ∧ e.tags.map (fun t => t.id) = firstDedup ((rowsFor rows e.id).map (fun r => r.tagId))
        ∧ e.tags.length = (firstDedup ((rowsFor rows e.id).map (fun r => r.tagId))).length
        ∧ ∃ r0, rows.find? (fun r => r.id == e.id) = some r0
            ∧ e.author = { id := r0.userId, displayName := r0.userDisplayName, hash := r0.userHash }
            ∧ e.answers = r0.answers ∧ e.votes = r0.votes) := by
  refine ⟨?_, ?_, ?_⟩
  · rw [assignData_eq_spec]
    exact assignDataSpec_map_id extended rows
  · rw [assignData_eq_spec]
    have h := assignDataSpec_map_id extended rows
    calc (assignDataSpec extended rows).length
        = ((assignDataSpec extended rows).map (fun e => e.id)).length := by
          rw [List.length_map]
      _ = (firstDedup (rows.map (fun r => r.id))).length := by rw [h]
  · rw [List.forall_iff_forall_mem]
    intro e he
    obtain ⟨r0, hfind, hhubs, htags, hauthor, hans, hvotes, _, _, _⟩ :=
      mem_assignData extended rows e he
    have hhubIds : e.hubs.map (fun h => h.id)
        = firstDedup ((rowsFor rows e.id).map (fun r => r.hubId)) := by
      rw [hhubs, map_key_dedupByKey, List.map_map]
      rfl
    have htagIds : e.tags.map (fun t => t.id)
        = firstDedup ((rowsFor rows e.id).map (fun r => r.tagId)) := by
      rw [htags, map_key_dedupByKey, List.map_map]
      rfl
    refine ⟨hhubIds, ?_, htagIds, ?_, r0, hfind, hauthor, hans, hvotes⟩
    · rw [← hhubIds, List.length_map]
    · rw [← htagIds, List.length_map]

/-- A raw row whose left-outer-joined association columns are all SQL
NULL, as would be produced for an entity with zero rows in that
association. -/
def c5row : RawArticleRow :=
  { id := 1, title := "t", abstract := "a", createdAt := 0, rank := none
    userId := 2, userDisplayName := "u", userHash := "h"
    hubId := none, hubName := none, tagId := none, tagName := none, tagHub := none
    answers := 0, votes := 0 }

/-- C5 counterexample: the denormalizer does not exclude null ids; a
row whose hub columns are NULL yields an entity whose hubs collection
contains an element with a null id. -/
theorem C5_counterexample :
    ∃ e ∈ Articles.assignData false [c5row], ∃ h ∈ e.hubs, h.id = none := by
  decide

/-- C5 amended: an entity whose rows carry null identifying columns
for an association still appears exactly once in the output, but
elements with null ids are retained in the nested collections exactly
like any other id value; no null filtering is performed.  (In the page
statement the hub and tag associations are inner-joined, so null ids
do not arise from the queries actually issued.) -/
theorem C5_nulls_retained (extended : Bool) (rows : List RawArticleRow) :
    ((Articles.assignData extended rows).map (fun e => e.id)
        = firstDedup (rows.map (fun r => r.id)))
    ∧ (Articles.assignData extended rows).Forall (fun e =>
        e.hubs.map (fun h => h.id) = firstDedup ((rowsFor rows e.id).map (fun r => r.hubId))
        ∧ e.tags.map (fun t => t.id) = firstDedup ((rowsFor rows e.id).map (fun r => r.tagId))) := by
  refine ⟨?_, ?_⟩
  · rw [assignData_eq_spec]
    exact assignDataSpec_map_id extended rows
  · rw [List.forall_iff_forall_mem]
    intro e he
    obtain ⟨r0, hfind, hhubs, htags, _, _, _, _, _, _⟩ :=
      mem_assignData extended rows e he
    constructor
    · rw [hhubs, map_key_dedupByKey, List.map_map]
      rfl
    · rw [htags, map_key_dedupByKey, List.map_map]
      rfl

/-! ## Filter descriptors and their predicate semantics

The prepareWhere helper (src/utils/queries) is not among the shown
source files.  Its per-kind semantics below are modelled from the
spec, section 4.1: id is equality, ids is set membership, numeric is a
comparator defaulting to equality, date is day-level equality or an
explicit range, text is a case-insensitive substring match, tsMatch is
a boolean match between the search-vector column and the prepared
search-query expression, an empty descriptor list is a tautology, and
descriptors combine with AND. -/

/-- Comparison operator of a numeric filter (spec 4.1). -/
inductive NumOp : Type
  | eq
  | gt
  | ge
  | lt
  | le
deriving DecidableEq, Repr

/-- A numeric filter: comparator plus value (spec 4.1). -/
structure NumericFilter where
  op : NumOp
  value : Int
deriving DecidableEq, Repr

/-- A date filter: day-level equality or an explicit range (spec 4.1). -/
inductive DateFilter : Type
  | day (d : Int)
  | range (lo hi : Int)
deriving DecidableEq, Repr

/-- Modelled from the spec: numeric filter semantics (spec 4.1). -/
def numericHolds (f : NumericFilter) (x : Int) : Bool :=
  match f.op with
  | NumOp.eq => x == f.value
  | NumOp.gt => f.value < x
  | NumOp.ge => f.value ≤ x
  | NumOp.lt => x < f.value
  | NumOp.le => x ≤ f.value

/-- Modelled from the spec: date filter semantics over day-truncated
values (spec 4.1). -/
def dateHolds (f : DateFilter) (x : Int) : Bool :=
  match f with
  | DateFilter.day d => x == d
  | DateFilter.range lo hi => lo ≤ x && x ≤ hi

/-- True when the first character list occurs contiguously in the
second, starting at its head. -/
def listStarts {α : Type} [DecidableEq α] : List α → List α → Bool
  | [], _ => true
  | _ :: _, [] => false
  | a :: as, b :: bs => a == b && listStarts as bs

/-- True when the first character list occurs contiguously anywhere in
the second. -/
def listHasSub {α : Type} [DecidableEq α] (n : List α) : List α → Bool
  | [] => n.isEmpty
  | b :: bs => listStarts n (b :: bs) || listHasSub n bs

/-- Modelled from the spec: text filter semantics, a case-insensitive
substring match (spec 4.1). -/
def textHolds (pat s : String) : Bool :=
  listHasSub pat.toLower.toList s.toLower.toList

/-- External vendor semantics the embedding is parameterized over: the
full-text match operator, the TS_RANK function and the DATE day
truncation of the underlying store. -/
structure PgEnv where
  tsmatch : String → String → Bool
  tsrank : String → String → Int
  dateTrunc : Int → Int

/-- The search attribute of a list instance: absent, or the raw search
text.  As in JS, only a non-empty text is truthy. -/
def searchActive (search : Option String) : Bool :=
  match search with
  | none => false
  | some s => !(s == "")

/-- The search text interpolated by the tsQuery getter. -/
def searchText (search : Option String) : String :=
  match search with
  | none => ""
  | some s => s

/-- The filters attribute of an Articles list, one optional filter per
entry of articlesFields (article.js). -/
structure ArticlesFilters where
  id : Option Int
  title : Option String
  author : Option Int
  hubs : Option (List Int)
  tags : Option (List Int)
  answers : Option NumericFilter
  votes : Option NumericFilter
  createdAt : Option DateFilter
deriving Repr

/-- Sort direction of a sort descriptor. -/
inductive SortDir : Type
  | ASC
  | DESC
deriving DecidableEq, Repr

/-- The sorts attribute of an Articles list, one optional direction per
sortable entry of articlesFields (article.js). -/
structure ArticlesSorts where
  title : Option SortDir
  author : Option SortDir
  answers : Option SortDir
  votes : Option SortDir
  createdAt : Option SortDir
deriving Repr

/-- The caller input of an Articles list: filters, sorts, limit,
offset, search, plus the extended flag of the constructor. -/
structure ArticlesParams where
  filters : ArticlesFilters
  sorts : ArticlesSorts
  limit : Nat
  offset : Nat
  search : Option String
  extended : Bool
deriving Repr

/-- Predicate semantics of the Articles where getter (article.js):
id, title and createdAt filters on the root row, plus the tsMatch
descriptor when search is truthy; AND of whatever is present, TRUE
when nothing is. -/
def Articles.wherePred (env : PgEnv) (f : ArticlesFilters) (search : Option String)
    (a : ArticleRow) : Bool :=
  (match f.id with
   | some v => a.id == v
   | none => true)
  && (match f.title with
      | some pat => textHolds pat a.title
      | none => true)
  && (match f.createdAt with
      | some df => dateHolds df (env.dateTrunc a.createdAt)
      | none => true)
  && (if searchActive search then env.tsmatch a.tsv (searchText search) else true)

/-- Predicate semantics of the Articles userWhere getter (article.js):
the author filter against the joined user id. -/
def Articles.userWherePred (f : ArticlesFilters) (u : UserRow) : Bool :=
  match f.author with
  | some v => u.id == v
  | none => true

/-- Predicate semantics of the Articles hubWhere getter (article.js):
set membership of the joined hub id. -/
def Articles.hubWherePred (f : ArticlesFilters) (h : HubRow) : Bool :=
  match f.hubs with
  | some l => l.contains h.id
  | none => true

/-- Predicate semantics of the Articles tagWhere getter (article.js):
set membership of the joined tag id. -/
def Articles.tagWherePred (f : ArticlesFilters) (t : TagRow) : Bool :=
  match f.tags with
  | some l => l.contains t.id
  | none => true

/-- Predicate semantics of the Articles having getter (article.js):
numeric filters against the answers and votes aggregate values. -/
def Articles.havingPred (f : ArticlesFilters) (answers votes : Int) : Bool :=
  (match f.answers with
   | some nf => numericHolds nf answers
   | none => true)
  && (match f.votes with
      | some nf => numericHolds nf votes
      | none => true)

/-! ## The Articles page statement (Articles.setData, first query) -/

/-- Rows of the parenthesized inner join of ArticlesHubs with Hubs on
the hub id (article.js, setData FROM clause). -/
def hubPairs (db : DB) : List (ArticleHubRow × HubRow) :=
  db.articleHubs.flatMap (fun ah =>
    (db.hubs.filter (fun h => h.id == ah.hub)).map (fun h => (ah, h)))

/-- Rows of the parenthesized inner join of ArticlesTags with Tags on
the tag id (article.js, setData FROM clause). -/
def tagPairs (db : DB) : List (ArticleTagRow × TagRow) :=
  db.articleTags.flatMap (fun atg =>
    (db.tags.filter (fun t => t.id == atg.tag)).map (fun t => (atg, t)))

/-- One pre-aggregation row of the page statement FROM clause: the
article joined with its user, one hub pair, one tag pair, and the
null-padded answer and vote rows of the two left outer joins. -/
structure PageBaseRow where
  a : ArticleRow
  u : UserRow
  ah : ArticleHubRow
  hub : HubRow
  atg : ArticleTagRow
  tag : TagRow
  ans : Option ArticleAnswerRow
  vot : Option ArticleVoteRow
deriving DecidableEq, Repr

/-- The FROM clause of the Articles page statement: Articles inner
join Users (author filter in the ON clause), inner join the hub pairs
(hubs filter in the ON clause), inner join the tag pairs (tags filter
in the ON clause), left outer join answers, left outer join votes. -/
def Articles.pageFrom (f : ArticlesFilters) (db : DB) : List PageBaseRow :=
  db.articles.flatMap (fun a =>
    (db.users.filter (fun u => a.author == u.id && Articles.userWherePred f u)).flatMap (fun u =>
      ((hubPairs db).filter (fun p => a.id == p.1.article && Articles.hubWherePred f p.2)).flatMap
        (fun p =>
          ((tagPairs db).filter
              (fun q => a.id == q.1.article && Articles.tagWherePred f q.2)).flatMap (fun q =>
            (leftJoinRows (db.articleAnswers.filter (fun ans => a.id == ans.article))
                (db.articleVotes.filter (fun v => a.id == v.article))).map (fun av =>
              { a := a, u := u, ah := p.1, hub := p.2, atg := q.1, tag := q.2,
                ans := av.1, vot := av.2 })))))

/-- The GROUP BY key of the page statement: article id, user id, user
email, hub id, junction hub row id, tag id, junction tag row id. -/
structure PageGroupKey where
  articleId : Int
  userId : Int
  userEmail : String
  hubId : Int
  articleHubId : Int
  tagId : Int
  articleTagId : Int
deriving DecidableEq, Repr

/-- The GROUP BY key of one pre-aggregation row. -/
def pageKey (r : PageBaseRow) : PageGroupKey :=
  { articleId := r.a.id, userId := r.u.id, userEmail := r.u.email
    hubId := r.hub.id, articleHubId := r.ah.id
    tagId := r.tag.id, articleTagId := r.atg.id }

/-- Group a filtered row list by the page statement GROUP BY key. -/
def pageGroups (rows : List PageBaseRow) : List (List PageBaseRow) :=
  (firstDedup (rows.map pageKey)).map (fun k => rows.filter (fun r => pageKey r == k))

/-- The answers aggregate of a group:
COUNT(DISTINCT("ArticleAnswer"."id")) (Articles.cols). -/
def answersAgg (g : List PageBaseRow) : Int :=
  Int.ofNat (((g.filterMap (fun r => r.ans)).map (fun ans => ans.id)).dedup).length

/-- The votes aggregate of a group:
COALESCE(SUM("ArticleVote"."vote"), 0) (Articles.cols); SQL SUM skips
the NULL vote column of null-padded rows, and an all-NULL sum
coalesces to 0, which coincides with the empty-list sum. -/
def votesAgg (g : List PageBaseRow) : Int :=
  ((g.filterMap (fun r => r.vot)).map (fun v => v.vote)).sum

/-- Projection of one group to a raw result row, with the aliases of
the page statement SELECT list.  The non-aggregate columns are
functionally determined by the GROUP BY key, so they are read off the
first row of the group. -/
def projectGroup (env : PgEnv) (search : Option String) (g : List PageBaseRow) : RawArticleRow :=
  match g with
  | [] => default
  | r :: _ =>
    { id := r.a.id
      title := r.a.title
      abstract := r.a.abstract
      createdAt := r.a.createdAt
      rank := if searchActive search then some (env.tsrank r.a.tsv (searchText search)) else none
      userId := r.u.id
      userDisplayName := r.u.displayName
      userHash := r.u.hash
      hubId := some r.hub.id
      hubName := some r.hub.name
      tagId := some r.tag.id
      tagName := some r.tag.name
      tagHub := some r.tag.hub
      answers := answersAgg g
      votes := votesAgg g }

/-- A sort key value: an integer or a string column. -/
inductive SVal : Type
  | int (i : Int)
  | str (s : String)
deriving DecidableEq, Repr

/-- Comparison of sort key values of the same column. -/
def svCompare : SVal → SVal → Ordering
  | SVal.int a, SVal.int b => compare a b
  | SVal.str a, SVal.str b => compare a b
  | SVal.int _, SVal.str _ => Ordering.lt
  | SVal.str _, SVal.int _ => Ordering.gt

/-- Semantic keys of the Articles order getter (article.js): one entry
per present sort, createdAt descending appended when the caller did
not sort on createdAt, rank descending appended last when search is
truthy. -/
def Articles.orderKeys (sorts : ArticlesSorts) (search : Option String) :
    List ((RawArticleRow → SVal) × SortDir) :=
  (match sorts.title with
   | some d => [(fun r => SVal.str r.title, d)]
   | none => [])
  ++ (match sorts.author with
      | some d => [(fun r => SVal.str r.userDisplayName, d)]
      | none => [])
  ++ (match sorts.answers with
      | some d => [(fun r => SVal.int r.answers, d)]
      | none => [])
  ++ (match sorts.votes with
      | some d => [(fun r => SVal.int r.votes, d)]
      | none => [])
  ++ (match sorts.createdAt with
      | some d => [(fun r => SVal.int r.createdAt, d)]
      | none => [(fun r => SVal.int r.createdAt, SortDir.DESC)])
  ++ (if searchActive search then [(fun r => SVal.int (r.rank.getD 0), SortDir.DESC)] else [])

/-- Lexicographic row comparison along a sort key list, flipping
descending keys. -/
def lexCmp {α : Type} : List ((α → SVal) × SortDir) → α → α → Ordering
  | [], _, _ => Ordering.eq
  | (k, d) :: ks, x, y =>
    let c := svCompare (k x) (k y)
    let c := match d with
      | SortDir.ASC => c
      | SortDir.DESC => c.swap
    match c with
    | Ordering.eq => lexCmp ks x y
    | o => o

/-- Insert an element before the first strictly greater one. -/
def insertSorted {α : Type} (cmp : α → α → Ordering) (x : α) : List α → List α
  | [] => [x]
  | y :: ys =>
    if cmp y x = Ordering.gt then x :: y :: ys else y :: insertSorted cmp x ys

/-- Stable insertion sort along a comparison. -/
def sortRows {α : Type} (cmp : α → α → Ordering) (l : List α) : List α :=
  l.foldl (fun acc x => insertSorted cmp x acc) []

/-- The full Articles page statement: FROM joins, WHERE, GROUP BY,
aggregates, HAVING, SELECT DISTINCT projection, ORDER BY, OFFSET and
LIMIT (article.js, Articles.setData first query). -/
def Articles.pageRows (env : PgEnv) (db : DB) (p : ArticlesParams) : List RawArticleRow :=
  let base := (Articles.pageFrom p.filters db).filter
    (fun r => Articles.wherePred env p.filters p.search r.a)
  let kept := (pageGroups base).filter
    (fun g => Articles.havingPred p.filters (answersAgg g) (votesAgg g))
  let projected := firstDedup (kept.map (projectGroup env p.search))
  let ordered := sortRows (lexCmp (Articles.orderKeys p.sorts p.search)) projected
  (ordered.drop p.offset).take p.limit

/-- The data attribute after Articles.setData: the page statement rows
fed through the denormalizing data setter. -/
def Articles.setDataResult (env : PgEnv) (db : DB) (p : ArticlesParams) : List ArticleEntity :=
  Articles.assignData p.extended (Articles.pageRows env db p)

/-! ## Concrete evaluation inputs -/

/-- A vendor environment for concrete runs without active search. -/
def env0 : PgEnv :=
  { tsmatch := fun _ _ => false, tsrank := fun _ _ => 0, dateTrunc := fun x => x }

/-- No filter active on any Articles field. -/
def noFilters : ArticlesFilters :=
  { id := none, title := none, author := none, hubs := none, tags := none
    answers := none, votes := none, createdAt := none }

/-- No sort requested on any Articles field. -/
def noSorts : ArticlesSorts :=
  { title := none, author := none, answers := none, votes := none, createdAt := none }

/-- One article by one author, in one hub with one tag, carrying two
answers and a single vote of value 3. -/
def c1db : DB :=
  { articles := [{ id := 1, title := "a", abstract := "ab", raw := "r", author := 1,
                   tsv := "", createdAt := 100 }]
    users := [{ id := 1, email := "e", displayName := "n", hash := "h" }]
    hubs := [{ id := 3, name := "h3" }]
    tags := [{ id := 7, name := "t7", description := "", hub := 3, tsv := "" }]
    articleHubs := [{ id := 1, article := 1, hub := 3 }]
    articleTags := [{ id := 1, article := 1, tag := 7 }]
    articleAnswers := [{ id := 1, article := 1, user := 2, message := "m1", createdAt := 50 },
                       { id := 2, article := 1, user := 2, message := "m2", createdAt := 51 }]
    articleVotes := [{ id := 1, article := 1, user := 2, vote := 3 }] }

/-- Default request: no filters, no sorts, limit 10, offset 0, no
search, not extended. -/
def c1params : ArticlesParams :=
  { filters := noFilters, sorts := noSorts, limit := 10, offset := 0
    search := none, extended := false }

/-- The actual sum of the vote values of one article. -/
def trueVoteSum (db : DB) (i : Int) : Int :=
  ((db.articleVotes.filter (fun v => v.article == i)).map (fun v => v.vote)).sum

/-- The actual number of distinct answers of one article. -/
def trueAnswerCount (db : DB) (i : Int) : Int :=
  Int.ofNat (((db.articleAnswers.filter (fun ans => ans.article == i)).map
    (fun ans => ans.id)).dedup.length)

/-- C1: evaluation of the Articles page statement at the failing
input.  The database holds a single article with one hub, one tag,
two answers and a single vote of value 3.  The answers aggregate
COUNT(DISTINCT("ArticleAnswer"."id")) correctly yields 2, but the
votes aggregate COALESCE(SUM("ArticleVote"."vote"), 0) is summed over
the cross product of answer rows with vote rows inside the group, so
it yields 6 instead of the exact vote sum 3: the claim fails on the
code for every article with at least two answers and a nonzero vote
sum. -/
theorem C1_votes_fanout_at_failing_input :
    (Articles.pageRows env0 c1db c1params).map (fun r => (r.id, r.answers, r.votes))
        = [(1, 2, 6)]
    ∧ (Articles.setDataResult env0 c1db c1params).map (fun e => (e.id, e.answers, e.votes))
        = [(1, 2, 6)]
    ∧ trueVoteSum c1db 1 = 3
    ∧ trueAnswerCount c1db 1 = 2 := by
  refine ⟨?_, ?_, ?_, ?_⟩ <;> rfl

/-- One article belonging to hubs 3 and 5, with one tag and no answers
or votes. -/
def c2db : DB :=
  { articles := [{ id := 1, title := "a", abstract := "ab", raw := "r", author := 1,
                   tsv := "", createdAt := 100 }]
    users := [{ id := 1, email := "e", displayName := "n", hash := "h" }]
    hubs := [{ id := 3, name := "h3" }, { id := 5, name := "h5" }]
    tags := [{ id := 7, name := "t7", description := "", hub := 3, tsv := "" }]
    articleHubs := [{ id := 1, article := 1, hub := 3 }, { id := 2, article := 1, hub := 5 }]
    articleTags := [{ id := 1, article := 1, tag := 7 }]
    articleAnswers := []
    articleVotes := [] }

/-- The request of Scenario 2: the set-membership filter hubs=[3]. -/
def c2params : ArticlesParams :=
  { filters := { noFilters with hubs := some [3] }, sorts := noSorts
    limit := 10, offset := 0, search := none, extended := false }

/-- C2 counterexample: with filter hubs=[3] on an article belonging to
hubs 3 and 5, the article does appear exactly once, but hub 5 is
absent from its hubs collection: the hubs filter sits in the ON clause
of the hub join, so rows for hub 5 never reach the denormalizer and
the nested collection is restricted along with the membership test. -/
theorem C2_counterexample :
    (c2db.articleHubs.map (fun ah => (ah.article, ah.hub))) = [(1, 3), (1, 5)]
    ∧ (Articles.setDataResult env0 c2db c2params).map
        (fun e => (e.id, e.hubs.map (fun h => h.id))) = [(1, [some 3])]
    ∧ ¬ ∃ e ∈ Articles.setDataResult env0 c2db c2params, ∃ h ∈ e.hubs, h.id = some 5 := by
  refine ⟨rfl, rfl, ?_⟩
  decide

/-- C2 amended: a set-membership filter on hubs restricts both which
articles qualify and the nested collection returned; with filter
hubs=[3] an article belonging to hubs 3 and 5 appears exactly once in
data, with only hub 3 in its hubs collection (other associations, such
as its tag, are unaffected). -/
theorem C2_filter_restricts_collection :
    (Articles.setDataResult env0 c2db c2params).map
        (fun e => (e.id, e.hubs.map (fun h => h.id), e.tags.map (fun t => t.id)))
      = [(1, [some 3], [some 7])] := by
  rfl

/-! ## The Articles total statement (Articles.setData, second query) -/

/-- Rows of the group keyed by one article id inside the count
subquery: every Articles row carrying that id, left outer joined with
its answers and votes. -/
def articleAVRowsById (db : DB) (i : Int) :
    List (Option ArticleAnswerRow × Option ArticleVoteRow) :=
  (db.articles.filter (fun a => a.id == i)).flatMap (fun a =>
    leftJoinRows (db.articleAnswers.filter (fun ans => a.id == ans.article))
      (db.articleVotes.filter (fun v => a.id == v.article)))

/-- COUNT(DISTINCT("ArticleAnswer"."id")) over the count subquery
group of one article id. -/
def subAnswersAgg (db : DB) (i : Int) : Int :=
  Int.ofNat (((articleAVRowsById db i).filterMap (fun r => r.1)).map
    (fun ans => ans.id)).dedup.length

/-- COALESCE(SUM("ArticleVote"."vote"), 0) over the count subquery
group of one article id. -/
def subVotesAgg (db : DB) (i : Int) : Int :=
  (((articleAVRowsById db i).filterMap (fun r => r.2)).map (fun v => v.vote)).sum

/-- The ArticlesAnswerVote subquery of the total statement: the
distinct article ids whose answers/votes group passes the HAVING
clause. -/
def articlesSubIds (db : DB) (f : ArticlesFilters) : List Int :=
  (firstDedup (db.articles.map (fun a => a.id))).filter
    (fun i => Articles.havingPred f (subAnswersAgg db i) (subVotesAgg db i))

/-- One row of the total statement FROM clause: the article joined
with its user, hub pair, tag pair, and a matching row of the
ArticlesAnswerVote subquery. -/
structure ArticlesTotalRow where
  a : ArticleRow
  u : UserRow
  ah : ArticleHubRow
  hub : HubRow
  atg : ArticleTagRow
  tag : TagRow
  subId : Int
deriving Repr

/-- The joined and WHERE-filtered rows of the Articles total
statement (article.js, Articles.setData second query). -/
def Articles.totalRows (env : PgEnv) (db : DB) (f : ArticlesFilters) (search : Option String) :
    List ArticlesTotalRow :=
  (db.articles.flatMap (fun a =>
    (db.users.filter (fun u => a.author == u.id && Articles.userWherePred f u)).flatMap (fun u =>
      ((hubPairs db).filter (fun p => a.id == p.1.article && Articles.hubWherePred f p.2)).flatMap
        (fun p =>
          ((tagPairs db).filter
              (fun q => a.id == q.1.article && Articles.tagWherePred f q.2)).flatMap (fun q =>
            ((articlesSubIds db f).filter (fun s => a.id == s)).map (fun s =>
              { a := a, u := u, ah := p.1, hub := p.2, atg := q.1, tag := q.2,
                subId := s })))))).filter
    (fun r => Articles.wherePred env f search r.a)

/-- The total attribute after Articles.setData:
COUNT(DISTINCT("Article"."id")) over the total statement rows.
The FilteredList mixin that stores the executed count row into the
total attribute is not among the shown source files; per the spec the
output total is the integer produced by the count statement. -/
def Articles.total (env : PgEnv) (db : DB) (p : ArticlesParams) : Nat :=
  (((Articles.totalRows env db p.filters p.search).map (fun r => r.a.id)).dedup).length

/-- Spec-side qualification of one article row: it satisfies the
row-level where predicates (including the join-scoped author, hubs and
tags predicates, which require a matching joined row to exist) and the
aggregate having predicates over its answers/votes group. -/
def articleQualifies (env : PgEnv) (db : DB) (f : ArticlesFilters) (search : Option String)
    (a : ArticleRow) : Bool :=
  Articles.wherePred env f search a
  && db.users.any (fun u => a.author == u.id && Articles.userWherePred f u)
  && (hubPairs db).any (fun p => a.id == p.1.article && Articles.hubWherePred f p.2)
  && (tagPairs db).any (fun q => a.id == q.1.article && Articles.tagWherePred f q.2)
  && Articles.havingPred f (subAnswersAgg db a.id) (subVotesAgg db a.id)

/-- Spec-side count: the number of distinct ids of qualifying article
rows. -/
def articlesDistinctQualifying (env : PgEnv) (db : DB) (f : ArticlesFilters)
    (search : Option String) : Nat :=
  (((db.articles.filter (articleQualifies env db f search)).map (fun a => a.id)).dedup).length

theorem dedup_length_eq_of_mem_iff {α : Type} [DecidableEq α] {l1 l2 : List α}
    (h : ∀ x, x ∈ l1 ↔ x ∈ l2) : l1.dedup.length = l2.dedup.length := by
  have h1 : l1.toFinset = l2.toFinset := Finset.ext (fun x => by
    rw [List.mem_toFinset, List.mem_toFinset]
    exact h x)
  calc l1.dedup.length = l1.toFinset.card := (List.card_toFinset l1).symm
    _ = l2.toFinset.card := by rw [h1]
    _ = l2.dedup.length := List.card_toFinset l2

theorem mem_articlesTotalIds_iff (env : PgEnv) (db : DB) (f : ArticlesFilters)
    (search : Option String) (i : Int) :
    i ∈ (Articles.totalRows env db f search).map (fun r => r.a.id)
      ↔ i ∈ (db.articles.filter (articleQualifies env db f search)).map (fun a => a.id) := by
  simp only [Articles.totalRows, articleQualifies, articlesSubIds, List.mem_map,
    List.mem_filter, List.mem_flatMap, Bool.and_eq_true, List.any_eq_true, beq_iff_eq,
    mem_firstDedup]
  constructor
  · rintro ⟨r, ⟨⟨a, ha, u, ⟨hu, hau, huw⟩, p, ⟨hp, hap, hpw⟩, q, ⟨hq, haq, hqw⟩, s,
      ⟨⟨⟨_, hhav⟩, haid⟩, rfl⟩⟩, hw⟩, hid⟩
    subst haid
    exact ⟨a, ⟨ha, ⟨⟨⟨hw, ⟨u, hu, hau, huw⟩⟩, ⟨p, hp, hap, hpw⟩⟩, ⟨q, hq, haq, hqw⟩⟩, hhav⟩, hid⟩
  · rintro ⟨a, ⟨ha, ⟨⟨⟨hw, ⟨u, hu, hau, huw⟩⟩, ⟨p, hp, hap, hpw⟩⟩, ⟨q, hq, haq, hqw⟩⟩, hhav⟩, rfl⟩
    exact ⟨{ a := a, u := u, ah := p.1, hub := p.2, atg := q.1, tag := q.2, subId := a.id },
      ⟨⟨a, ha, u, ⟨hu, hau, huw⟩, p, ⟨hp, hap, hpw⟩, q, ⟨hq, haq, hqw⟩, a.id,
        ⟨⟨⟨⟨a, ha, rfl⟩, hhav⟩, rfl⟩, rfl⟩⟩, hw⟩, rfl⟩

/-! ## The Tags list (tag.js) -/

/-- The filters attribute of a Tags list, one optional filter per
entry of tagsFields (tag.js). -/
structure TagsFilters where
  id : Option Int
  name : Option String
  hub : Option Int
  articles : Option NumericFilter
deriving Repr

/-- The sorts attribute of a Tags list (tag.js). -/
structure TagsSorts where
  name : Option SortDir
  articles : Option SortDir
deriving Repr

/-- The caller input of a Tags list. -/
structure TagsParams where
  filters : TagsFilters
  sorts : TagsSorts
  limit : Nat
  offset : Nat
  search : Option String
deriving Repr

/-- Predicate semantics of the Tags where getter (tag.js): id, name
and hub filters on the tag row, plus the tsMatch descriptor when
search is truthy. -/
def Tags.wherePred (env : PgEnv) (f : TagsFilters) (search : Option String) (t : TagRow) : Bool :=
  (match f.id with
   | some v => t.id == v
   | none => true)
  && (match f.name with
      | some pat => textHolds pat t.name
      | none => true)
  && (match f.hub with
      | some v => t.hub == v
      | none => true)
  && (if searchActive search then env.tsmatch t.tsv (searchText search) else true)

/-- Predicate semantics of the Tags having getter (tag.js): the
numeric filter against the articles aggregate. -/
def Tags.havingPred (f : TagsFilters) (articles : Int) : Bool :=
  match f.articles with
  | some nf => numericHolds nf articles
  | none => true

/-- Rows of the parenthesized inner join of ArticlesTags with Articles
on the article id (tag.js, setData FROM clause). -/
def tagArticlePairs (db : DB) : List (ArticleTagRow × ArticleRow) :=
  db.articleTags.flatMap (fun atg =>
    (db.articles.filter (fun a => a.id == atg.article)).map (fun a => (atg, a)))

/-- Rows of the count statement group keyed by one tag id: every
WHERE-passing Tags row carrying that id, left outer joined with its
article pairs. -/
def tagGroupRows (env : PgEnv) (db : DB) (f : TagsFilters) (search : Option String) (i : Int) :
    List (Option (ArticleTagRow × ArticleRow)) :=
  ((db.tags.filter (fun t => Tags.wherePred env f search t)).filter
      (fun t => t.id == i)).flatMap
    (fun t => optList ((tagArticlePairs db).filter (fun p => t.id == p.1.tag)))

/-- COUNT(DISTINCT("Article"."id")) over the count statement group of
one tag id (Tags.cols articles). -/
def tagArticlesAgg (env : PgEnv) (db : DB) (f : TagsFilters) (search : Option String)
    (i : Int) : Int :=
  Int.ofNat (((tagGroupRows env db f search i).filterMap
    (fun o => o.map (fun p => p.2.id))).dedup).length

/-- The inner subquery of the Tags total statement: the distinct
WHERE-passing tag ids whose group passes the HAVING clause. -/
def Tags.totalSubIds (env : PgEnv) (db : DB) (f : TagsFilters) (search : Option String) :
    List Int :=
  (firstDedup ((db.tags.filter (fun t => Tags.wherePred env f search t)).map
      (fun t => t.id))).filter
    (fun i => Tags.havingPred f (tagArticlesAgg env db f search i))

/-- The total attribute after Tags.setData: COUNT("id") over the
subquery result rows (tag.js, second query).  The FilteredList mixin
storing the count row into the total attribute is not among the shown
source files; per the spec the output total is the integer produced by
the count statement. -/
def Tags.total (env : PgEnv) (db : DB) (p : TagsParams) : Nat :=
  (Tags.totalSubIds env db p.filters p.search).length

/-- Spec-side qualification of one tag row: it satisfies the where
predicates and the having predicate over its articles aggregate. -/
def tagQualifies (env : PgEnv) (db : DB) (f : TagsFilters) (search : Option String)
    (t : TagRow) : Bool :=
  Tags.wherePred env f search t && Tags.havingPred f (tagArticlesAgg env db f search t.id)

/-- Spec-side count: the number of distinct ids of qualifying tag
rows. -/
def tagsDistinctQualifying (env : PgEnv) (db : DB) (f : TagsFilters)
    (search : Option String) : Nat :=
  (((db.tags.filter (tagQualifies env db f search)).map (fun t => t.id)).dedup).length

theorem tags_total_eq_distinctQualifying (env : PgEnv) (db : DB) (p : TagsParams) :
    Tags.total env db p = tagsDistinctQualifying env db p.filters p.search := by
  have hnd : (Tags.totalSubIds env db p.filters p.search).Nodup :=
    List.Nodup.filter _ (nodup_firstDedup _)
  have hlen : (Tags.totalSubIds env db p.filters p.search).length
      = (Tags.totalSubIds env db p.filters p.search).dedup.length := by
    rw [List.dedup_eq_self.mpr hnd]
  rw [Tags.total, hlen]
  apply dedup_length_eq_of_mem_iff
  intro x
  simp only [Tags.totalSubIds, tagQualifies, tagsDistinctQualifying, List.mem_filter,
    mem_firstDedup, List.mem_map, Bool.and_eq_true, beq_iff_eq]
  constructor
  · rintro ⟨⟨t, ⟨ht, hw⟩, rfl⟩, hhav⟩
    exact ⟨t, ⟨ht, hw, hhav⟩, rfl⟩
  · rintro ⟨t, ⟨ht, hw, hhav⟩, rfl⟩
    exact ⟨⟨t, ⟨ht, hw⟩, rfl⟩, hhav⟩

/-- C4: after setData, total is an integer equal to the number of
distinct root entities (articles for the Articles list, tags for the
Tags list) satisfying both the where predicates (including the
join-scoped author/hubs/tags membership predicates, which require a
matching joined row) and the having predicates over the aggregates the
code computes, and this value is independent of limit and offset. -/
theorem C4_total_distinct_and_pagination_independent (env : PgEnv) (db : DB)
    (pa : ArticlesParams) (pt : TagsParams) (la oa lt ot : Nat) :
    Articles.total env db pa = articlesDistinctQualifying env db pa.filters pa.search
    ∧ Tags.total env db pt = tagsDistinctQualifying env db pt.filters pt.search
    ∧ Articles.total env db { pa with limit := la, offset := oa } = Articles.total env db pa
    ∧ Tags.total env db { pt with limit := lt, offset := ot } = Tags.total env db pt := by
  refine ⟨?_, tags_total_eq_distinctQualifying env db pt, rfl, rfl⟩
  exact dedup_length_eq_of_mem_iff
    (fun x => mem_articlesTotalIds_iff env db pa.filters pa.search x)

/-! ## The compiled ORDER BY clauses (Articles.order, Tags.order) -/

/-- Column expression "Article"."title" (Articles.cols). -/
def Articles.colTitle : String := "\"Article\".\"title\""

/-- Column expression "User"."displayName" (Articles.cols). -/
def Articles.colUserDisplayName : String := "\"User\".\"displayName\""

/-- Aggregate expression of the answers column (Articles.cols). -/
def Articles.colAnswers : String := "COUNT(DISTINCT(\"ArticleAnswer\".\"id\"))"

/-- Aggregate expression of the votes column (Articles.cols). -/
def Articles.colVotes : String := "COALESCE(SUM(\"ArticleVote\".\"vote\"), 0)"

/-- Column expression "Article"."createdAt" (Articles.cols). -/
def Articles.colCreatedAt : String := "\"Article\".\"createdAt\""

/-- The projected rank alias referenced by the order getters. -/
def rankAlias : String := "\"rank\""

/-- Column expression "Tag"."name" (Tags.cols). -/
def Tags.colName : String := "\"Tag\".\"name\""

/-- Aggregate expression of the articles column (Tags.cols). -/
def Tags.colArticles : String := "COUNT(DISTINCT(\"Article\".\"id\"))"

/-- The caller-driven part of the Articles order getter: one entry per
present sort among title, author, answers, votes (article.js). -/
def Articles.callerKeys (sorts : ArticlesSorts) : List (String × SortDir) :=
  (match sorts.title with
   | some d => [(Articles.colTitle, d)]
   | none => [])
  ++ (match sorts.author with
      | some d => [(Articles.colUserDisplayName, d)]
      | none => [])
  ++ (match sorts.answers with
      | some d => [(Articles.colAnswers, d)]
      | none => [])
  ++ (match sorts.votes with
      | some d => [(Articles.colVotes, d)]
      | none => [])

/-- The createdAt entry of the Articles order getter: the caller
direction when present, otherwise the appended default descending
entry (article.js). -/
def Articles.createdAtKey (sorts : ArticlesSorts) : List (String × SortDir) :=
  match sorts.createdAt with
  | some d => [(Articles.colCreatedAt, d)]
  | none => [(Articles.colCreatedAt, SortDir.DESC)]

/-- The descriptor list built by the Articles order getter
(article.js): caller keys, then the createdAt entry, then the rank
tie-break when search is truthy. -/
def Articles.orderList (sorts : ArticlesSorts) (search : Option String) :
    List (String × SortDir) :=
  Articles.callerKeys sorts
  ++ Articles.createdAtKey sorts
  ++ (if searchActive search then [(rankAlias, SortDir.DESC)] else [])

/-- The caller-driven part of the Tags order getter (tag.js). -/
def Tags.callerKeys (sorts : TagsSorts) : List (String × SortDir) :=
  match sorts.name with
  | some d => [(Tags.colName, d)]
  | none => []

/-- The articles-count entry of the Tags order getter: the caller
direction when present, otherwise the appended default descending
entry (tag.js). -/
def Tags.articlesKey (sorts : TagsSorts) : List (String × SortDir) :=
  match sorts.articles with
  | some d => [(Tags.colArticles, d)]
  | none => [(Tags.colArticles, SortDir.DESC)]

/-- The descriptor list built by the Tags order getter (tag.js). -/
def Tags.orderList (sorts : TagsSorts) (search : Option String) : List (String × SortDir) :=
  Tags.callerKeys sorts
  ++ Tags.articlesKey sorts
  ++ (if searchActive search then [(rankAlias, SortDir.DESC)] else [])

/-- SQL text of a sort direction. -/
def dirStr : SortDir → String
  | SortDir.ASC => "ASC"
  | SortDir.DESC => "DESC"

/-- SQL text of one order descriptor. -/
def orderEntryStr (o : String × SortDir) : String :=
  o.1 ++ " " ++ dirStr o.2

/-- Modelled from the spec: prepareOrder (src/utils/queries) is not
among the shown source files; per spec 4.2 it renders the descriptor
list as a comma-separated clause preserving precedence order. -/
def prepareOrder : List (String × SortDir) → String
  | [] => ""
  | [o] => orderEntryStr o
  | o :: o2 :: os => orderEntryStr o ++ ", " ++ prepareOrder (o2 :: os)

theorem prepareOrder_concat (l : List (String × SortDir)) (o : String × SortDir) :
    ∃ pre, prepareOrder (l ++ [o]) = pre ++ orderEntryStr o := by
  induction l with
  | nil => exact ⟨"", rfl⟩
  | cons x xs ih =>
    obtain ⟨pre, hpre⟩ := ih
    cases xs with
    | nil => exact ⟨orderEntryStr x ++ ", ", rfl⟩
    | cons y ys =>
      refine ⟨orderEntryStr x ++ ", " ++ pre, ?_⟩
      have h1 : prepareOrder ((x :: y :: ys) ++ [o])
          = orderEntryStr x ++ ", " ++ prepareOrder ((y :: ys) ++ [o]) := rfl
      rw [h1, hpre, ← String.append_assoc]

/-- C6: whenever a sort specification omits the default dimension
(createdAt for Articles, the articles count for Tags), the compiled
order ends with that dimension descending after all caller-specified
keys (it is the last key without search, and the second-to-last key
directly before rank with search); and whenever search is active, the
rank-descending key is the absolute last ordering key, for every sort
specification. -/
theorem C6_order_default_and_rank_last (sa : ArticlesSorts) (st : TagsSorts)
    (q : Option String) :
    (sa.createdAt = none → searchActive q = false →
        (Articles.orderList sa q).getLast? = some (Articles.colCreatedAt, SortDir.DESC)
        ∧ ∃ pre, prepareOrder (Articles.orderList sa q)
            = pre ++ (Articles.colCreatedAt ++ " DESC"))
    ∧ (sa.createdAt = none → searchActive q = true →
        (Articles.orderList sa q).getLast? = some (rankAlias, SortDir.DESC)
        ∧ (Articles.orderList sa q).dropLast.getLast?
            = some (Articles.colCreatedAt, SortDir.DESC))
    ∧ (searchActive q = true →
        (Articles.orderList sa q).getLast? = some (rankAlias, SortDir.DESC)
        ∧ ∃ pre, prepareOrder (Articles.orderList sa q) = pre ++ (rankAlias ++ " DESC"))
    ∧ (st.articles = none → searchActive q = false →
        (Tags.orderList st q).getLast? = some (Tags.colArticles, SortDir.DESC)
        ∧ ∃ pre, prepareOrder (Tags.orderList st q)
            = pre ++ (Tags.colArticles ++ " DESC"))
    ∧ (st.articles = none → searchActive q = true →
        (Tags.orderList st q).getLast? = some (rankAlias, SortDir.DESC)
        ∧ (Tags.orderList st q).dropLast.getLast? = some (Tags.colArticles, SortDir.DESC))
    ∧ (searchActive q = true →
        (Tags.orderList st q).getLast? = some (rankAlias, SortDir.DESC)) := by
  have hentryC : orderEntryStr (Articles.colCreatedAt, SortDir.DESC)
      = Articles.colCreatedAt ++ " DESC" := rfl
  have hentryR : orderEntryStr (rankAlias, SortDir.DESC) = rankAlias ++ " DESC" := rfl
  have hentryT : orderEntryStr (Tags.colArticles, SortDir.DESC)
      = Tags.colArticles ++ " DESC" := rfl
  refine ⟨?_, ?_, ?_, ?_, ?_, ?_⟩
  · intro ha hq
    have hl : Articles.orderList sa q
        = Articles.callerKeys sa ++ [(Articles.colCreatedAt, SortDir.DESC)] := by
      unfold Articles.orderList Articles.createdAtKey
      rw [ha, hq]
      simp
    constructor
    · rw [hl, List.getLast?_concat]
    · obtain ⟨pre, hp⟩ := prepareOrder_concat (Articles.callerKeys sa)
        (Articles.colCreatedAt, SortDir.DESC)
      exact ⟨pre, by rw [hl, hp, hentryC]⟩
  · intro ha hq
    have hl : Articles.orderList sa q
        = (Articles.callerKeys sa ++ [(Articles.colCreatedAt, SortDir.DESC)])
          ++ [(rankAlias, SortDir.DESC)] := by
      unfold Articles.orderList Articles.createdAtKey
      rw [ha, hq]
      simp
    constructor
    · rw [hl, List.getLast?_concat]
    · rw [hl, List.dropLast_concat, List.getLast?_concat]
  · intro hq
    have hl : Articles.orderList sa q
        = (Articles.callerKeys sa ++ Articles.createdAtKey sa)
          ++ [(rankAlias, SortDir.DESC)] := by
      unfold Articles.orderList
      rw [hq]
      simp
    constructor
    · rw [hl, List.getLast?_concat]
    · obtain ⟨pre, hp⟩ := prepareOrder_concat
        (Articles.callerKeys sa ++ Articles.createdAtKey sa) (rankAlias, SortDir.DESC)
      exact ⟨pre, by rw [hl, hp, hentryR]⟩
  · intro ht hq
    have hl : Tags.orderList st q
        = Tags.callerKeys st ++ [(Tags.colArticles, SortDir.DESC)] := by
      unfold Tags.orderList Tags.articlesKey
      rw [ht, hq]
      simp
    constructor
    · rw [hl, List.getLast?_concat]
    · obtain ⟨pre, hp⟩ := prepareOrder_concat (Tags.callerKeys st)
        (Tags.colArticles, SortDir.DESC)
      exact ⟨pre, by rw [hl, hp, hentryT]⟩
  · intro ht hq
    have hl : Tags.orderList st q
        = (Tags.callerKeys st ++ [(Tags.colArticles, SortDir.DESC)])
          ++ [(rankAlias, SortDir.DESC)] := by
      unfold Tags.orderList Tags.articlesKey
      rw [ht, hq]
      simp
    constructor
    · rw [hl, List.getLast?_concat]
    · rw [hl, List.dropLast_concat, List.getLast?_concat]
  · intro hq
    have hl : Tags.orderList st q
        = (Tags.callerKeys st ++ Tags.articlesKey st) ++ [(rankAlias, SortDir.DESC)] := by
      unfold Tags.orderList
      rw [hq]
      simp
    rw [hl, List.getLast?_concat]

/-- C6 witness: concrete instantiation at empty sort specifications,
with and without search. -/
theorem C6_order_witness :
    (Articles.orderList noSorts none).getLast? = some (Articles.colCreatedAt, SortDir.DESC)
    ∧ (Articles.orderList noSorts (some "x")).getLast? = some (rankAlias, SortDir.DESC)
    ∧ (Tags.orderList { name := none, articles := none } none).getLast?
        = some (Tags.colArticles, SortDir.DESC)
    ∧ (Tags.orderList { name := none, articles := none } (some "x")).getLast?
        = some (rankAlias, SortDir.DESC) :=
  ⟨((C6_order_default_and_rank_last noSorts { name := none, articles := none } none).1
      rfl rfl).1,
   ((C6_order_default_and_rank_last noSorts { name := none, articles := none }
      (some "x")).2.2.1 rfl).1,
   (((C6_order_default_and_rank_last noSorts { name := none, articles := none }
      none).2.2.2.1) rfl rfl).1,
   ((C6_order_default_and_rank_last noSorts { name := none, articles := none }
      (some "x")).2.2.2.2.2) rfl⟩

/-! ## Search text interpolation (tsQuery, rankCol) -/

/-- Column expression "Article"."tsv" (Articles.cols). -/
def Articles.colTsv : String := "\"Article\".\"tsv\""

/-- Column expression "Tag"."tsv" (Tags.cols). -/
def Tags.colTsv : String := "\"Tag\".\"tsv\""

/-- The Articles tsQuery getter (article.js): the caller search text
spliced between plainto_tsquery(\x27 and \x27) when search is truthy,
the empty string otherwise. -/
def Articles.tsQuery (search : Option String) : String :=
  if searchActive search then "plainto_tsquery(\x27" ++ searchText search ++ "\x27)" else ""

/-- The Articles rankCol getter (article.js). -/
def Articles.rankColStr (search : Option String) : String :=
  if searchActive search then
    "TS_RANK(" ++ Articles.colTsv ++ ", " ++ Articles.tsQuery search ++ ")"
  else ""

/-- The Tags tsQuery getter (tag.js). -/
def Tags.tsQuery (search : Option String) : String :=
  if searchActive search then "plainto_tsquery(\x27" ++ searchText search ++ "\x27)" else ""

/-- The Tags rankCol getter (tag.js). -/
def Tags.rankColStr (search : Option String) : String :=
  if searchActive search then
    "TS_RANK(" ++ Tags.colTsv ++ ", " ++ Tags.tsQuery search ++ ")"
  else ""

/-- C7: for every truthy search text s, the tsQuery fragment is the
text plainto_tsquery(...) with s interpolated verbatim between the
quotes, not a parameter placeholder, and the rank column fragment
contains that fragment, hence s, verbatim; likewise for Tags. -/
theorem C7_search_text_interpolated (s : String) (h : s ≠ "") :
    Articles.tsQuery (some s) = "plainto_tsquery(\x27" ++ s ++ "\x27)"
    ∧ Articles.rankColStr (some s)
        = "TS_RANK(" ++ Articles.colTsv ++ ", " ++ Articles.tsQuery (some s) ++ ")"
    ∧ (∃ pre post, Articles.tsQuery (some s) = pre ++ s ++ post)
    ∧ (∃ pre post, Articles.rankColStr (some s) = pre ++ s ++ post)
    ∧ Tags.tsQuery (some s) = "plainto_tsquery(\x27" ++ s ++ "\x27)"
    ∧ Tags.rankColStr (some s)
        = "TS_RANK(" ++ Tags.colTsv ++ ", " ++ Tags.tsQuery (some s) ++ ")"
    ∧ (∃ pre post, Tags.rankColStr (some s) = pre ++ s ++ post) := by
  have hA : searchActive (some s) = true := by
    simp [searchActive, h]
  have hatq : Articles.tsQuery (some s) = "plainto_tsquery(\x27" ++ s ++ "\x27)" := by
    simp [Articles.tsQuery, hA, searchText]
  have harank : Articles.rankColStr (some s)
      = "TS_RANK(" ++ Articles.colTsv ++ ", " ++ Articles.tsQuery (some s) ++ ")" := by
    simp [Articles.rankColStr, hA]
  have httq : Tags.tsQuery (some s) = "plainto_tsquery(\x27" ++ s ++ "\x27)" := by
    simp [Tags.tsQuery, hA, searchText]
  have htrank : Tags.rankColStr (some s)
      = "TS_RANK(" ++ Tags.colTsv ++ ", " ++ Tags.tsQuery (some s) ++ ")" := by
    simp [Tags.rankColStr, hA]
  refine ⟨hatq, harank, ?_, ?_, httq, htrank, ?_⟩
  · exact ⟨"plainto_tsquery(\x27", "\x27)", hatq⟩
  · refine ⟨"TS_RANK(" ++ Articles.colTsv ++ ", " ++ "plainto_tsquery(\x27", "\x27)" ++ ")", ?_⟩
    rw [harank, hatq]
    simp only [String.append_assoc]
  · refine ⟨"TS_RANK(" ++ Tags.colTsv ++ ", " ++ "plainto_tsquery(\x27", "\x27)" ++ ")", ?_⟩
    rw [htrank, httq]
    simp only [String.append_assoc]

/-- C7 witness: concrete instantiation at search text foo. -/
theorem C7_search_text_witness :
    Articles.tsQuery (some "foo") = "plainto_tsquery(\x27" ++ "foo" ++ "\x27)"
    ∧ Tags.tsQuery (some "foo") = "plainto_tsquery(\x27" ++ "foo" ++ "\x27)" :=
  ⟨(C7_search_text_interpolated "foo" (by decide)).1,
   (C7_search_text_interpolated "foo" (by decide)).2.2.2.2.1⟩

/-! ## The Tags page statement and the list state (setData twice) -/

/-- One raw result row of the Tags page statement (tag.js). -/
structure RawTagRow where
  id : Int
  name : String
  hub : Int
  rank : Option Int
  articles : Int
deriving DecidableEq, Repr, Inhabited

/-- One denormalized tag entity as produced by the Tags data setter
(tag.js, set data). -/
structure TagEntity where
  id : Int
  name : String
  hub : Int
  articles : Int
deriving DecidableEq, Repr, Inhabited

/-- The Tags set data setter of tag.js: one output object per raw
row. -/
def Tags.assignData (rows : List RawTagRow) : List TagEntity :=
  rows.map (fun t => { id := t.id, name := t.name, hub := t.hub, articles := t.articles })

/-! ## Statement execution control flow (setData try/catch) -/

/-- The control flow of Articles.setData around its two awaited
statement executions (article.js): the page statement result is
assigned to data, then the count statement result to total; the catch
block rethrows the caught error unchanged.  The second component
counts the statements issued: a first-statement failure short-circuits
before the second statement, and no statement is executed twice. -/
def Articles.setDataRun {E : Type} (extended : Bool)
    (q1 : Except E (List RawArticleRow)) (q2 : Except E Nat) :
    Except E (List ArticleEntity × Nat) × Nat :=
  match q1 with
  | Except.error e => (Except.error e, 1)
  | Except.ok rows =>
    match q2 with
    | Except.error e => (Except.error e, 2)
    | Except.ok total => (Except.ok (Articles.assignData extended rows, total), 2)

/-- The control flow of Tags.setData around its two awaited statement
executions (tag.js); same try/catch shape as Articles.setData. -/
def Tags.setDataRun {E : Type} (q1 : Except E (List RawTagRow)) (q2 : Except E Nat) :
    Except E (List TagEntity × Nat) × Nat :=
  match q1 with
  | Except.error e => (Except.error e, 1)
  | Except.ok rows =>
    match q2 with
    | Except.error e => (Except.error e, 2)
    | Except.ok total => (Except.ok (Tags.assignData rows, total), 2)

/-- C8: a failing statement execution makes setData propagate that
exact error value unchanged (not wrapped), with no retry: a failure of
the first statement issues exactly one statement and the second is
never executed, and a failure of the second statement issues exactly
the two statements, each once; likewise for the Tags builder. -/
theorem C8_error_propagation {E : Type} (extended : Bool) (e e2 : E)
    (q2 : Except E Nat) (rows : List RawArticleRow) (trows : List RawTagRow) :
    Articles.setDataRun extended (Except.error e) q2 = (Except.error e, 1)
    ∧ Articles.setDataRun extended (Except.ok rows) (Except.error e2)
        = (Except.error e2, 2)
    ∧ Tags.setDataRun (Except.error e) q2 = (Except.error e, 1)
    ∧ Tags.setDataRun (Except.ok trows) (Except.error e2) = (Except.error e2, 2) :=
  ⟨rfl, rfl, rfl, rfl⟩

/-- Semantic keys of the Tags order getter (tag.js). -/
def Tags.orderKeysSem (sorts : TagsSorts) (search : Option String) :
    List ((RawTagRow → SVal) × SortDir) :=
  (match sorts.name with
   | some d => [(fun r => SVal.str r.name, d)]
   | none => [])
  ++ (match sorts.articles with
      | some d => [(fun r => SVal.int r.articles, d)]
      | none => [(fun r => SVal.int r.articles, SortDir.DESC)])
  ++ (if searchActive search then [(fun r => SVal.int (r.rank.getD 0), SortDir.DESC)] else [])

/-- The full Tags page statement (tag.js, Tags.setData first query):
FROM left outer join, WHERE, GROUP BY tag id, aggregate, HAVING,
SELECT DISTINCT projection, ORDER BY, OFFSET and LIMIT.  The
non-aggregate columns are read off the first WHERE-passing tag row of
each group. -/
def Tags.pageRows (env : PgEnv) (db : DB) (p : TagsParams) : List RawTagRow :=
  let keptTags := db.tags.filter (fun t => Tags.wherePred env p.filters p.search t)
  let keys := firstDedup (keptTags.map (fun t => t.id))
  let kept := keys.filter
    (fun i => Tags.havingPred p.filters (tagArticlesAgg env db p.filters p.search i))
  let projected := firstDedup (kept.map (fun i =>
    match keptTags.find? (fun t => t.id == i) with
    | some t0 =>
      { id := t0.id, name := t0.name, hub := t0.hub
        rank := if searchActive p.search then
            some (env.tsrank t0.tsv (searchText p.search)) else none
        articles := tagArticlesAgg env db p.filters p.search i }
    | none => default))
  let ordered := sortRows (lexCmp (Tags.orderKeysSem p.sorts p.search)) projected
  (ordered.drop p.offset).take p.limit

/-- The data attribute after Tags.setData. -/
def Tags.setDataResult (env : PgEnv) (db : DB) (p : TagsParams) : List TagEntity :=
  Tags.assignData (Tags.pageRows env db p)

/-- The mutable state of an Articles list instance: the data proxy
written by the data setter, the total, and the accumulated statement
timings.  The FilteredList mixin holding these attributes is not among
the shown source files; the attributes are modelled from the spec
(section 3, Paginated List). -/
structure ArticlesListState where
  dataProxy : List ArticleEntity
  total : Nat
  timings : List Nat
deriving Repr

/-- The state of a Tags list instance. -/
structure TagsListState where
  dataProxy : List TagEntity
  total : Nat
  timings : List Nat
deriving Repr

/-- One successful run of Articles.setData as a state transformer:
data and total are overwritten from the two statement results, the two
statement timings are appended. -/
def Articles.setDataState (env : PgEnv) (db : DB) (p : ArticlesParams) (t1 t2 : Nat)
    (s : ArticlesListState) : ArticlesListState :=
  { dataProxy := Articles.setDataResult env db p
    total := Articles.total env db p
    timings := s.timings ++ [t1, t2] }

/-- One successful run of Tags.setData as a state transformer. -/
def Tags.setDataState (env : PgEnv) (db : DB) (p : TagsParams) (t1 t2 : Nat)
    (s : TagsListState) : TagsListState :=
  { dataProxy := Tags.setDataResult env db p
    total := Tags.total env db p
    timings := s.timings ++ [t1, t2] }

/-- C9: running setData twice on the same list instance with unchanged
filter/sort/limit/offset/search input against unchanged storage yields
the same data and the same total after the second run as after the
first: the setters overwrite rather than accumulate (only the timing
log grows). -/
theorem C9_setData_idempotent (env : PgEnv) (db : DB) (pa : ArticlesParams)
    (pt : TagsParams) (t1 t2 t3 t4 : Nat) (sa : ArticlesListState) (st : TagsListState) :
    ((Articles.setDataState env db pa t3 t4
          (Articles.setDataState env db pa t1 t2 sa)).dataProxy
        = (Articles.setDataState env db pa t1 t2 sa).dataProxy
      ∧ (Articles.setDataState env db pa t3 t4
          (Articles.setDataState env db pa t1 t2 sa)).total
        = (Articles.setDataState env db pa t1 t2 sa).total)
    ∧ ((Tags.setDataState env db pt t3 t4
          (Tags.setDataState env db pt t1 t2 st)).dataProxy
        = (Tags.setDataState env db pt t1 t2 st).dataProxy
      ∧ (Tags.setDataState env db pt t3 t4
          (Tags.setDataState env db pt t1 t2 st)).total
        = (Tags.setDataState env db pt t1 t2 st).total) :=
  ⟨⟨rfl, rfl⟩, ⟨rfl, rfl⟩⟩

/-! ## The articles controller (controllers/articles.js) -/

/-- The default page size of the all handler. -/
def ARTICLES_LIMIT : Int := 10

/-- JS falsy defaulting of a parseInt result: NaN (modelled none), 0
and -0 are falsy and are replaced by the default. -/
def jsOr (v : Option Int) (dflt : Int) : Int :=
  match v with
  | none => dflt
  | some x => if x == 0 then dflt else x

/-- The data record built by the all handler before constructing the
Articles list (controllers/articles.js): limit and offset from the
parsed request body with JS falsy defaulting. -/
def allRequestData (parsedLimit parsedOffset : Option Int) : Int × Int :=
  (jsOr parsedLimit ARTICLES_LIMIT, jsOr parsedOffset 0)

/-- C10: any requested limit whose integer parse is NaN or 0 is
replaced by the default limit 10, any offset parsing to NaN or 0 by 0,
before the Articles list is constructed; in particular the normalized
limit is never 0, so a caller cannot obtain a zero-item page by
requesting limit 0. -/
theorem C10_limit_offset_normalization (l o : Option Int) :
    ((l = none ∨ l = some 0) → (allRequestData l o).1 = 10)
    ∧ ((o = none ∨ o = some 0) → (allRequestData l o).2 = 0)
    ∧ (allRequestData l o).1 ≠ 0
    ∧ (allRequestData (some 0) o).1 = 10 := by
  refine ⟨?_, ?_, ?_, rfl⟩
  · rintro (rfl | rfl) <;> rfl
  · rintro (rfl | rfl) <;> rfl
  · cases l with
    | none =>
      simp [allRequestData, jsOr, ARTICLES_LIMIT]
    | some x =>
      by_cases hx : x = 0
      · subst hx
        simp [allRequestData, jsOr, ARTICLES_LIMIT]
      · simp [allRequestData, jsOr, hx]

/-- C10 witness: concrete instantiation at an explicit limit 0 and an
absent offset. -/
theorem C10_limit_offset_witness :
    (allRequestData (some 0) none).1 = 10 ∧ (allRequestData (some 0) none).2 = 0 :=
  ⟨(C10_limit_offset_normalization (some 0) none).1 (Or.inr rfl),
   (C10_limit_offset_normalization (some 0) none).2.1 (Or.inl rfl)⟩
